import Mathlib

/-!
Shallow embedding of the arrow-convert sources and verification of the
spec's claims about them.

Part 1 models `src/arrow_convert/src/field.rs`: the `ArrowField` trait
(`data_type`, `is_nullable`, `field`), the `ArrowEnableVecForType`
capability registry, and all the impls the file provides.  Rust types
that carry an `ArrowField` impl are reflected in the closed inductive
`Rty`; trait resolution becomes a structural recursion over `Rty`.

Part 2 models `src/src/deserialize.rs`: the `ArrowDeserialize` and
`ArrowArray` traits, the primitive / bool / `Option<T>` / `Vec<T>` impls
and the `arrow_array_typed_iterator` helper.  A possible Rust panic
(`Option::unwrap` on `None`, failed `downcast_ref::<...>().unwrap()`)
is made explicit through the `PRes` result type.
-/

set_option autoImplicit false

namespace ArrowConvert

/-- Model of `arrow::datatypes::DataType`, restricted to the variants the
source file produces.  The list variants inline the child `Field`
(name, data type, nullable) to avoid a mutual inductive; `DataType.listOf`
and friends rebuild them from a `Field` value.  `timestamp` stands for
`Timestamp(TimeUnit::Nanosecond, None)`. -/
inductive DataType where
  | boolean
  | uint8
  | uint16
  | uint32
  | uint64
  | int8
  | int16
  | int32
  | int64
  | float16
  | float32
  | float64
  | decimal128 (precision : Nat) (scale : Int)
  | utf8
  | largeUtf8
  | timestamp
  | date32
  | binary
  | largeBinary
  | fixedSizeBinary (size : Int)
  | list (childName : String) (childType : DataType) (childNullable : Bool)
  | largeList (childName : String) (childType : DataType) (childNullable : Bool)
  | fixedSizeList (childName : String) (childType : DataType) (childNullable : Bool) (size : Int)
  deriving DecidableEq

/-- Model of `arrow::datatypes::Field`: the parts of a field the source
constructs via `Field::new(name, data_type, nullable)`. -/
structure Field where
  name : String
  dtype : DataType
  nullable : Bool
  deriving DecidableEq

/-- `Field::new(name, data_type, nullable)`. -/
def Field.new (name : String) (dtype : DataType) (nullable : Bool) : Field :=
  ⟨name, dtype, nullable⟩

/-- `DataType::List(Arc::new(field))`. -/
def DataType.listOf (f : Field) : DataType :=
  .list f.name f.dtype f.nullable

/-- `DataType::LargeList(Arc::new(field))`. -/
def DataType.largeListOf (f : Field) : DataType :=
  .largeList f.name f.dtype f.nullable

/-- `DataType::FixedSizeList(Arc::new(field), size)`. -/
def DataType.fixedSizeListOf (f : Field) (size : Int) : DataType :=
  .fixedSizeList f.name f.dtype f.nullable size

/-- The Rust types given an `ArrowField` impl by `field.rs` (closed world
of that file).  `i128Dec p s` is the `I128<PRECISION, SCALE>` marker,
`array t n` is `[T; SIZE]` (with `SIZE : usize` modelled as `Nat`),
`fixedSizeBinaryTy` / `fixedSizeVec` carry their `const SIZE : i32` as
`Int`, and `strRef` is `&str`. -/
inductive Rty where
  | u8
  | u16
  | u32
  | u64
  | i8
  | i16
  | i32
  | i64
  | f16
  | f32
  | f64
  | i128Dec (precision : Nat) (scale : Int)
  | strRef
  | string
  | largeString
  | bool
  | naiveDateTime
  | naiveDate
  | buffer
  | largeBinaryTy
  | fixedSizeBinaryTy (size : Int)
  | scalarBuffer (t : Rty)
  | vec (t : Rty)
  | largeVec (t : Rty)
  | fixedSizeVec (t : Rty) (size : Int)
  | array (t : Rty) (size : Nat)
  | option (t : Rty)
  deriving DecidableEq

/-- `ArrowField::is_nullable`: the default returns `false`; only the
blanket `Option<T>` impl overrides it to `true`. -/
def is_nullable : Rty → Bool
  | .option _ => true
  | _ => false

/-- Membership in arrow's `ArrowNativeType` trait, for the types of
`Rty` (the primitive numeric types). -/
def ArrowNativeType : Rty → Bool
  | .u8 | .u16 | .u32 | .u64 => true
  | .i8 | .i16 | .i32 | .i64 => true
  | .f16 | .f32 | .f64 => true
  | _ => false

/-- `DEFAULT_FIELD_NAME` from `field.rs`. -/
def DEFAULT_FIELD_NAME : String := "item"

/-- Rust's `as` cast from `usize` to `i32` (wrapping truncation of the
low 32 bits, then two's-complement reinterpretation). -/
def usizeToI32 (n : Nat) : Int :=
  if n % 4294967296 < 2147483648 then ((n % 4294967296 : Nat) : Int)
  else ((n % 4294967296 : Nat) : Int) - 4294967296

/-- Helper for the generic container impls of `field.rs`.  Given the
child's `(data_type?, enable_vec)` pair, an extra trait-bound condition
`extra` (used for `ArrowNativeType` on `ScalarBuffer<T>`) and the
container's `DataType` builder, it produces the container's own
`(data_type?, enable_vec)` pair: both the `ArrowField` impl and the
`ArrowEnableVecForType` impl of the container require
`T: ArrowField + ArrowEnableVecForType` (plus `extra`). -/
def mkNested (child : Option DataType × Bool) (extra : Bool)
    (build : DataType → DataType) : Option DataType × Bool :=
  match child.1, child.2 && extra with
  | some dt, true => (some (build dt), true)
  | _, _ => (none, false)

/-- Combined trait resolution for `field.rs`: for a type `t`, returns
`(data_type if t : ArrowField, whether t : ArrowEnableVecForType)`.
Base rows follow `impl_numeric_type` / `impl_numeric_type_full`, the
explicit impl blocks, and the `arrow_enable_vec_for_type!` registrations
at the bottom of the file.  The `if t = .u8` branches reflect the
dedicated `Vec<u8>` / `ScalarBuffer<u8>` / `[u8; SIZE]` impls, which are
the only ones applicable there because `u8` is not registered in
`ArrowEnableVecForType`. -/
def fieldInfo : Rty → Option DataType × Bool
  | .u8 => (some .uint8, false)
  | .u16 => (some .uint16, true)
  | .u32 => (some .uint32, true)
  | .u64 => (some .uint64, true)
  | .i8 => (some .int8, true)
  | .i16 => (some .int16, true)
  | .i32 => (some .int32, true)
  | .i64 => (some .int64, true)
  | .f16 => (some .float16, true)
  | .f32 => (some .float32, true)
  | .f64 => (some .float64, true)
  | .i128Dec p s => (some (.decimal128 p s), true)
  | .strRef => (some .utf8, false)
  | .string => (some .utf8, true)
  | .largeString => (some .largeUtf8, true)
  | .bool => (some .boolean, true)
  | .naiveDateTime => (some .timestamp, true)
  | .naiveDate => (some .date32, true)
  | .buffer => (some .binary, true)
  | .largeBinaryTy => (some .largeBinary, true)
  | .fixedSizeBinaryTy n => (some (.fixedSizeBinary n), true)
  | .scalarBuffer t =>
      if t = .u8 then (some .binary, true)
      else mkNested (fieldInfo t) (ArrowNativeType t)
        (fun dt => .listOf (Field.new DEFAULT_FIELD_NAME dt (is_nullable t)))
  | .vec t =>
      if t = .u8 then (some .binary, true)
      else mkNested (fieldInfo t) true
        (fun dt => .listOf (Field.new DEFAULT_FIELD_NAME dt (is_nullable t)))
  | .largeVec t =>
      mkNested (fieldInfo t) true
        (fun dt => .largeListOf (Field.new DEFAULT_FIELD_NAME dt (is_nullable t)))
  | .fixedSizeVec t n =>
      mkNested (fieldInfo t) true
        (fun dt => .fixedSizeListOf (Field.new DEFAULT_FIELD_NAME dt (is_nullable t)) n)
  | .array t n =>
      if t = .u8 then (some (.fixedSizeBinary (usizeToI32 n)), false)
      else ((mkNested (fieldInfo t) true
        (fun dt => .fixedSizeListOf (Field.new DEFAULT_FIELD_NAME dt (is_nullable t))
          (usizeToI32 n))).1, false)
  | .option t => ((fieldInfo t).1, (fieldInfo t).1.isSome && (fieldInfo t).2)

/-- `ArrowField::data_type` for `t`; `none` when `t` has no `ArrowField`
impl (the composition does not compile in Rust). -/
def data_type (t : Rty) : Option DataType := (fieldInfo t).1

/-- Whether `t` implements the `ArrowEnableVecForType` marker trait. -/
def ArrowEnableVecForType (t : Rty) : Bool := (fieldInfo t).2

/-- `ArrowField::field(name)`: `Field::new(name, data_type, is_nullable)`. -/
def fieldOf (t : Rty) (name : String) : Option Field :=
  (data_type t).map (fun dt => Field.new name dt (is_nullable t))

/-!
Part 2: model of `src/src/deserialize.rs`.
-/

/-- Result of running a piece of Rust code that may panic: either its
value or `panicked` (an aborted process; `Option::unwrap` on `None` and
`downcast_ref(..).unwrap()` on a failed downcast both produce it). -/
inductive PRes (α : Type) where
  | ok (a : α)
  | panicked
  deriving DecidableEq

/-- Maps over the value of a non-panicked computation; a panic
propagates. -/
def PRes.map {α β : Type} (f : α → β) : PRes α → PRes β
  | .ok a => .ok (f a)
  | .panicked => .panicked

/-- Model of `arrow2::error::Error` as used here: the spec's
`TypeMismatch` plus a catch-all for any other variant. -/
inductive ArrowError where
  | typeMismatch
  | other
  deriving DecidableEq

/-- The concrete element type of an `arrow2` `PrimitiveArray` (its Rust
`TypeId`); downcasting checks it for equality. -/
inductive PrimTag where
  | u8 | u16 | u32 | u64 | i8 | i16 | i32 | i64 | f32 | f64
  deriving DecidableEq

/-- A type-erased `&dyn Array`: one physical column.  Numeric payloads
are modelled as `Int`.  Iterating a column yields `Option` items
(`none` is an explicit null); a `ListArray` yields one nested boxed
column per element. -/
inductive PhysArray where
  | primitive (tag : PrimTag) (items : List (Option Int))
  | boolean (items : List (Option Bool))
  | utf8 (items : List (Option String))
  | binary (items : List (Option (List Int)))
  | listArray (items : List (Option PhysArray))

/-- Model of the `ArrowArray` trait for a given array type: iterator
items of type `Item`, and `iter_from_array_ref` producing the item
sequence from a type-erased handle.  The `Result` of the source is kept;
a panic of the body is the outer `PRes`. -/
structure ArrowArray (Item : Type) where
  iter_from_array_ref : PhysArray → PRes (Except ArrowError (List Item))

/-- Model of the `ArrowDeserialize` trait for one `Self` type: iterator
item type `Item`, values of type `T`.  Both methods may panic, hence the
`PRes` results. -/
structure ArrowDeserialize (Item T : Type) where
  arrow_deserialize : Item → PRes (Option T)
  arrow_deserialize_internal : Item → PRes T

/-- The default body of `arrow_deserialize_internal`:
`Self::arrow_deserialize(v).unwrap()` — panics when the deserialized
value is `None`. -/
def defaultInternal {Item T : Type} (f : Item → PRes (Option T)) (v : Item) : PRes T :=
  match f v with
  | .ok (some t) => .ok t
  | .ok none => .panicked
  | .panicked => .panicked

/-- The `impl_arrow_array!` body for `PrimitiveArray<$t>`:
`Ok(b.as_any().downcast_ref::<Self>().unwrap().into_iter())`.  A handle
of any other concrete representation fails the downcast and the
`unwrap()` panics; the error arm of the `Result` is never used. -/
def primitiveArrowArray (tag : PrimTag) : ArrowArray (Option Int) :=
  ⟨fun b =>
    match b with
    | .primitive t items => if t = tag then .ok (.ok items) else .panicked
    | _ => .panicked⟩

/-- The `impl_arrow_array!` body for `BooleanArray`. -/
def booleanArrowArray : ArrowArray (Option Bool) :=
  ⟨fun b =>
    match b with
    | .boolean items => .ok (.ok items)
    | _ => .panicked⟩

/-- The `impl_arrow_array!` body for `ListArray<i32>`. -/
def listArrowArray : ArrowArray (Option PhysArray) :=
  ⟨fun b =>
    match b with
    | .listArray items => .ok (.ok items)
    | _ => .panicked⟩

/-- The `impl_arrow_deserialize_primitive!` body:
`fn arrow_deserialize(v: Option<&T>) -> Option<T> { v.map(|t| *t) }`. -/
def primitiveDeserialize (α : Type) : Option α → PRes (Option α) :=
  fun v => .ok (v.map (fun t => t))

/-- The `ArrowDeserialize` impl a `impl_arrow_deserialize_primitive!`
invocation generates (value type abstracted as `α`);
`arrow_deserialize_internal` is the trait default. -/
def primitiveDeser (α : Type) : ArrowDeserialize (Option α) α :=
  ⟨primitiveDeserialize α, defaultInternal (primitiveDeserialize α)⟩

/-- `impl ArrowDeserialize for bool`: `arrow_deserialize(v) = v`. -/
def boolDeserialize : Option Bool → PRes (Option Bool) :=
  fun v => .ok v

/-- The `bool` impl, with the default `arrow_deserialize_internal`. -/
def boolDeser : ArrowDeserialize (Option Bool) Bool :=
  ⟨boolDeserialize, defaultInternal boolDeserialize⟩

/-- The blanket `impl<T> ArrowDeserialize for Option<T>`:
`arrow_deserialize(v) = Some(Self::arrow_deserialize_internal(v))` and
`arrow_deserialize_internal(v) = T::arrow_deserialize(v)` (so the outer
method wraps exactly one `Some` around the inner engine's result). -/
def optionDeser {Item T : Type} (d : ArrowDeserialize Item T) :
    ArrowDeserialize Item (Option T) where
  arrow_deserialize v :=
    match d.arrow_deserialize v with
    | .ok x => .ok (some x)
    | .panicked => .panicked
  arrow_deserialize_internal v := d.arrow_deserialize v

/-- Bundles, for an element type `T`, its `ArrowDeserialize` impl and
the `ArrowArray` impl of its associated `ArrayType` (the
`T::ArrayType : ArrowArray` constraint of the source). -/
structure ElemDeser (Item T : Type) where
  arr : ArrowArray Item
  des : ArrowDeserialize Item T

/-- `arrow_array_typed_iterator`:
`Ok(ArrayType::iter_from_array_ref(b)?.map(arrow_deserialize_internal))`.
The mapped iterator is lazy, so each element holds the still-unevaluated
`PRes` of its `arrow_deserialize_internal` call. -/
def arrow_array_typed_iterator {Item T : Type} (e : ElemDeser Item T)
    (b : PhysArray) : PRes (Except ArrowError (List (PRes T))) :=
  match e.arr.iter_from_array_ref b with
  | .panicked => .panicked
  | .ok (.error er) => .ok (.error er)
  | .ok (.ok items) => .ok (.ok (items.map e.des.arrow_deserialize_internal))

/-- Draining `.collect::<Vec<T>>()` of the mapped iterator: forces each
element in order; the first element that panics aborts the whole
collection. -/
def collectList {T : Type} : List (PRes T) → PRes (List T)
  | [] => .ok []
  | .panicked :: _ => .panicked
  | .ok t :: rest => PRes.map (fun ts => t :: ts) (collectList rest)

/-- The `Vec<T>` `arrow_deserialize` body: `None` maps to `None`;
`Some(t)` runs `arrow_array_typed_iterator(t.deref()).ok().map(|i|
i.collect::<Vec<T>>())` — note `Result::ok()` turns an adapter error
into a `None` value. -/
def vecDeserialize {Item T : Type} (e : ElemDeser Item T) :
    Option PhysArray → PRes (Option (List T))
  | none => .ok none
  | some b =>
    match arrow_array_typed_iterator e b with
    | .panicked => .panicked
    | .ok (.error _) => .ok none
    | .ok (.ok prs) =>
      match collectList prs with
      | .panicked => .panicked
      | .ok ts => .ok (some ts)

/-- The blanket `impl<T> ArrowDeserialize for Vec<T>`, with the default
`arrow_deserialize_internal`. -/
def vecDeser {Item T : Type} (e : ElemDeser Item T) :
    ArrowDeserialize (Option PhysArray) (List T) :=
  ⟨vecDeserialize e, defaultInternal (vecDeserialize e)⟩

/-- The element bundle for `T = u32`: `PrimitiveArray<u32>` as the
array type, the primitive deserializer for its values. -/
def u32Elem : ElemDeser (Option Int) Int :=
  ⟨primitiveArrowArray .u32, primitiveDeser Int⟩

/-!
Helper lemmas.
-/

theorem mkNested_of_some (c : Option DataType × Bool) (e : Bool) (b : DataType → DataType)
    (dt : DataType) (h1 : c.1 = some dt) (h2 : c.2 = true) (h3 : e = true) :
    mkNested c e b = (some (b dt), true) := by
  obtain ⟨c1, c2⟩ := c
  simp only at h1 h2
  subst h1; subst h2; subst h3
  simp [mkNested]

theorem mkNested_snd_isSome (c : Option DataType × Bool) (e : Bool) (b : DataType → DataType)
    (h : (mkNested c e b).2 = true) : (mkNested c e b).1.isSome = true := by
  unfold mkNested at h ⊢
  split at h <;> simp_all

/-- Every type registered in `ArrowEnableVecForType` also has an
`ArrowField` impl: the explicit registrations target `ArrowField` types
and every blanket registration carries a `T: ArrowField` bound. -/
theorem enable_implies_field (t : Rty) :
    ArrowEnableVecForType t = true → (data_type t).isSome = true := by
  unfold ArrowEnableVecForType data_type
  cases t <;> intro h
  case u8 => exact absurd h (by decide)
  case strRef => exact absurd h (by decide)
  case scalarBuffer t =>
    by_cases hu : t = Rty.u8
    · subst hu; rfl
    · simp only [fieldInfo, if_neg hu] at h ⊢
      exact mkNested_snd_isSome _ _ _ h
  case vec t =>
    by_cases hu : t = Rty.u8
    · subst hu; rfl
    · simp only [fieldInfo, if_neg hu] at h ⊢
      exact mkNested_snd_isSome _ _ _ h
  case largeVec t =>
    simp only [fieldInfo] at h ⊢
    exact mkNested_snd_isSome _ _ _ h
  case fixedSizeVec t n =>
    simp only [fieldInfo] at h ⊢
    exact mkNested_snd_isSome _ _ _ h
  case array t n =>
    by_cases hu : t = Rty.u8
    · subst hu; rfl
    · simp only [fieldInfo, if_neg hu] at h
      simp at h
  case option t =>
    simp only [fieldInfo, Bool.and_eq_true] at h ⊢
    exact h.1
  all_goals rfl

theorem usizeToI32_small (n : Nat) (h : n < 2147483648) : usizeToI32 n = (n : Int) := by
  have h2 : n % 4294967296 = n := Nat.mod_eq_of_lt (lt_trans h (by norm_num))
  unfold usizeToI32
  rw [h2, if_pos h]

theorem collectList_map_ok {Item T : Type} (g : Item → PRes T) (f : Item → T)
    (items : List Item) (h : ∀ v ∈ items, g v = .ok (f v)) :
    collectList (items.map g) = .ok (items.map f) := by
  induction items with
  | nil => rfl
  | cons v rest ih =>
    have hv : g v = .ok (f v) := h v (List.mem_cons_self v rest)
    have hrest := ih (fun u hu => h u (List.mem_cons_of_mem _ hu))
    simp only [List.map_cons, hv, collectList, hrest, PRes.map]

theorem collectList_map_panics (items : List (Option Int)) (h : none ∈ items) :
    collectList (items.map u32Elem.des.arrow_deserialize_internal) = .panicked := by
  induction items with
  | nil => cases h
  | cons v rest ih =>
    cases v with
    | none => rfl
    | some x =>
      have hr : none ∈ rest := by
        rcases List.mem_cons.mp h with h1 | h2
        · exact absurd h1 (by simp)
        · exact h2
      show collectList (PRes.ok x :: rest.map u32Elem.des.arrow_deserialize_internal) = _
      simp only [collectList, ih hr, PRes.map]

/-!
Claim theorems.
-/

/-- Claim C1 (evidence for a code bug): when the built-in per-array
`iter_from_array_ref` is handed an array handle whose concrete
representation does not match (here: a boolean column given to the
`PrimitiveArray<u32>` impl, directly and via
`arrow_array_typed_iterator`), the code panics on the unwrapped failed
downcast, and for no input does it return an error through its `Result`
channel — contradicting the claim that a mismatch yields a
`TypeMismatch` error and never panics. -/
theorem c1_mismatch_panics :
    (primitiveArrowArray .u32).iter_from_array_ref (.boolean [some true]) = .panicked ∧
    arrow_array_typed_iterator u32Elem (.boolean [some true]) = .panicked ∧
    ∀ b : PhysArray, (primitiveArrowArray .u32).iter_from_array_ref b = .panicked ∨
      ∃ items, (primitiveArrowArray .u32).iter_from_array_ref b = .ok (.ok items) := by
  refine ⟨rfl, rfl, ?_⟩
  intro b
  cases b with
  | primitive tag items =>
    by_cases htag : tag = PrimTag.u32
    · subst htag
      exact Or.inr ⟨items, rfl⟩
    · exact Or.inl (by simp [primitiveArrowArray, htag])
  | boolean items => exact Or.inl rfl
  | utf8 items => exact Or.inl rfl
  | binary items => exact Or.inl rfl
  | listArray items => exact Or.inl rfl

/-- Claim C2 (counterexample): `Option<u32>` is a registered element
type, yet the child field of `Vec<Option<u32>>` has `nullable == true`,
so the claim's "child nullable == false for any other registered
element type" fails as stated. -/
theorem c2_counterexample :
    ArrowEnableVecForType (.option .u32) = true ∧
    data_type (.vec (.option .u32)) =
      some (.list DEFAULT_FIELD_NAME .uint32 true) := ⟨rfl, rfl⟩

/-- Claim C2 (amended): `Vec<u8>` maps to `Binary`; for any other
registered element type `T`, `Vec<T>` maps to `List` whose child field
has the default name, `T`'s logical type, and nullable equal to `T`'s
nullability flag (`false` whenever `T` is non-optional). -/
theorem c2_vec_schema :
    data_type (.vec .u8) = some .binary ∧
    ∀ (t : Rty) (dt : DataType), t ≠ .u8 → ArrowEnableVecForType t = true →
      data_type t = some dt →
      data_type (.vec t) =
        some (.listOf (Field.new DEFAULT_FIELD_NAME dt (is_nullable t))) := by
  refine ⟨rfl, ?_⟩
  intro t dt hne hev hdt
  show (fieldInfo (.vec t)).1 = _
  simp only [fieldInfo, if_neg hne]
  rw [mkNested_of_some (fieldInfo t) true _ dt hdt hev rfl]

/-- Witness for C2's amended theorem at the concrete element `u32`. -/
theorem c2_witness :
    data_type (.vec .u8) = some .binary ∧
    data_type (.vec .u32) = some (.list DEFAULT_FIELD_NAME .uint32 false) := by
  refine ⟨c2_vec_schema.1, ?_⟩
  exact c2_vec_schema.2 .u32 .uint32 (by decide) rfl rfl

/-- Claim C3: the blanket `Option<T>` deserializer's internal method
returns exactly `T::arrow_deserialize`'s result (no extra `Option`
wrapper), and its outer `arrow_deserialize` wraps exactly one `Some`
around that result, so composing `Option<T>` over `T` never
double-wraps a single nullable value. -/
theorem c3_option_no_double_wrap : ∀ (Item T : Type) (d : ArrowDeserialize Item T) (v : Item),
    (optionDeser d).arrow_deserialize_internal v = d.arrow_deserialize v ∧
    (optionDeser d).arrow_deserialize v = PRes.map some (d.arrow_deserialize v) := by
  intro Item T d v
  refine ⟨rfl, ?_⟩
  cases h : d.arrow_deserialize v <;> simp [optionDeser, PRes.map, h]

/-- Claim C4: `Option<T>` delegates `data_type` to `T` unchanged, its
nullability flag is `true`, and every non-optional implemented type has
nullability `false`. -/
theorem c4_option_nullability (t : Rty) :
    data_type (.option t) = data_type t ∧
    is_nullable (.option t) = true ∧
    ((∀ u, t ≠ .option u) → is_nullable t = false) := by
  refine ⟨rfl, rfl, ?_⟩
  intro h
  cases t <;> first | rfl | exact absurd rfl (h _)

/-- Witness for C4 at the concrete type `u32`. -/
theorem c4_witness :
    data_type (.option .u32) = data_type .u32 ∧
    is_nullable (.option .u32) = true ∧ is_nullable .u32 = false := by
  obtain ⟨h1, h2, h3⟩ := c4_option_nullability .u32
  exact ⟨h1, h2, h3 (fun u h => Rty.noConfusion h)⟩

/-- Claim C5 (counterexample): `Option<Option<u32>>` does obtain a
schema descriptor through the framework's own blanket rules — its
`data_type` is `UInt32` and it is nullable — so double optionality is
not rejected by construction. -/
theorem c5_counterexample :
    data_type (.option (.option .u32)) = some .uint32 ∧
    is_nullable (.option (.option .u32)) = true := ⟨rfl, rfl⟩

/-- Claim C5 (amended): the blanket `Option` impl applies recursively,
so `Option<Option<T>>` obtains a descriptor whenever `T` does, equal to
`T`'s logical type with the nullable flag set — the double wrapping is
flattened in the descriptor rather than made unrepresentable. -/
theorem c5_double_option_flattens (t : Rty) :
    data_type (.option (.option t)) = data_type t ∧
    is_nullable (.option (.option t)) = true := ⟨rfl, rfl⟩

/-- Claim C6: deserializing one list cell maps `None` to `None`, and
maps `Some(handle)` to the collection obtained by adapting the handle
for the element type, draining the whole iterator through
`arrow_deserialize_internal` and collecting in storage order. -/
theorem c6_list_deserialize : ∀ (Item T : Type) (e : ElemDeser Item T) (b : PhysArray)
    (items : List Item) (f : Item → T),
    e.arr.iter_from_array_ref b = .ok (.ok items) →
    (∀ v ∈ items, e.des.arrow_deserialize_internal v = .ok (f v)) →
    (vecDeser e).arrow_deserialize none = .ok none ∧
    (vecDeser e).arrow_deserialize (some b) = .ok (some (items.map f)) := by
  intro Item T e b items f hadapt hall
  refine ⟨rfl, ?_⟩
  have h1 : arrow_array_typed_iterator e b =
      .ok (.ok (items.map e.des.arrow_deserialize_internal)) := by
    unfold arrow_array_typed_iterator
    rw [hadapt]
  show vecDeserialize e (some b) = _
  simp only [vecDeserialize, h1,
    collectList_map_ok e.des.arrow_deserialize_internal f items hall]

/-- Witness for C6: the 3-element `u32` column `[1,2,3]` deserializes
to exactly `[1,2,3]`, and a `None` cell to `None`. -/
theorem c6_witness :
    (vecDeser u32Elem).arrow_deserialize
      (some (.primitive .u32 [some 1, some 2, some 3])) = .ok (some [1, 2, 3]) ∧
    (vecDeser u32Elem).arrow_deserialize (none : Option PhysArray) = .ok none := by
  have h := c6_list_deserialize (Option Int) Int u32Elem
    (.primitive .u32 [some 1, some 2, some 3]) [some 1, some 2, some 3]
    (fun v => v.getD 0) rfl (by decide)
  exact ⟨h.2.trans (by decide), h.1⟩

/-- Claim C7: the primitive deserializers map a non-null item holding
`v` to `Some(v)` and an explicit null item to `None` (numeric
primitives via the macro body, `bool` via the identity body). -/
theorem c7_primitive_null_check : ∀ (α : Type) (v : α),
    (primitiveDeser α).arrow_deserialize (some v) = .ok (some v) ∧
    (primitiveDeser α).arrow_deserialize none = .ok none ∧
    ∀ b : Bool, boolDeser.arrow_deserialize (some b) = .ok (some b) ∧
      boolDeser.arrow_deserialize none = .ok none := by
  intro α v
  exact ⟨rfl, rfl, fun b => ⟨rfl, rfl⟩⟩

/-- Claim C8 (counterexample): `String` is registered as repeatable,
but `ScalarBuffer<String>` is not — the `ScalarBuffer<T>` blanket
registration additionally requires `ArrowNativeType`, so repeatability
does not propagate to `ScalarBuffer<T>` for every repeatable `T`. -/
theorem c8_counterexample :
    ArrowEnableVecForType .string = true ∧
    ArrowEnableVecForType (.scalarBuffer .string) = false := ⟨rfl, rfl⟩

/-- Claim C8 (amended): repeatability is transitive for the composite
wrappers — for every repeatable `T`, `Vec<T>`, `Option<T>`,
`LargeVec<T>` and `FixedSizeVec<T, N>` are repeatable, and
`ScalarBuffer<T>` is repeatable when `T` is additionally an Arrow
native numeric type — and registration is an explicit opt-in list:
`u8` is field-capable but not repeatable. -/
theorem c8_repeatable_closure :
    (∀ t : Rty, ArrowEnableVecForType t = true →
      ArrowEnableVecForType (.vec t) = true ∧
      ArrowEnableVecForType (.option t) = true ∧
      ArrowEnableVecForType (.largeVec t) = true ∧
      (∀ n : Int, ArrowEnableVecForType (.fixedSizeVec t n) = true) ∧
      (ArrowNativeType t = true → ArrowEnableVecForType (.scalarBuffer t) = true)) ∧
    (data_type .u8).isSome = true ∧ ArrowEnableVecForType .u8 = false := by
  refine ⟨?_, rfl, rfl⟩
  intro t hev
  have hsome : (fieldInfo t).1.isSome = true := enable_implies_field t hev
  have hev' : (fieldInfo t).2 = true := hev
  obtain ⟨dt, hdt⟩ := Option.isSome_iff_exists.mp hsome
  have hne : t ≠ Rty.u8 := by
    intro h; subst h; exact absurd hev (by decide)
  refine ⟨?_, ?_, ?_, ?_, ?_⟩
  · show (fieldInfo (.vec t)).2 = true
    simp only [fieldInfo, if_neg hne]
    rw [mkNested_of_some (fieldInfo t) true _ dt hdt hev' rfl]
  · show ((fieldInfo t).1.isSome && (fieldInfo t).2) = true
    rw [hsome, hev']
    rfl
  · show (fieldInfo (.largeVec t)).2 = true
    simp only [fieldInfo]
    rw [mkNested_of_some (fieldInfo t) true _ dt hdt hev' rfl]
  · intro n
    show (fieldInfo (.fixedSizeVec t n)).2 = true
    simp only [fieldInfo]
    rw [mkNested_of_some (fieldInfo t) true _ dt hdt hev' rfl]
  · intro hnat
    show (fieldInfo (.scalarBuffer t)).2 = true
    simp only [fieldInfo, if_neg hne]
    rw [mkNested_of_some (fieldInfo t) (ArrowNativeType t) _ dt hdt hev' hnat]

/-- Witness for C8's amended theorem at the concrete type `u32`. -/
theorem c8_witness :
    ArrowEnableVecForType (.vec .u32) = true ∧
    ArrowEnableVecForType (.option .u32) = true ∧
    ArrowEnableVecForType (.largeVec .u32) = true ∧
    ArrowEnableVecForType (.fixedSizeVec .u32 4) = true ∧
    ArrowEnableVecForType (.scalarBuffer .u32) = true ∧
    (data_type .u8).isSome = true ∧ ArrowEnableVecForType .u8 = false := by
  obtain ⟨h, hu1, hu2⟩ := c8_repeatable_closure
  obtain ⟨h1, h2, h3, h4, h5⟩ := h .u32 rfl
  exact ⟨h1, h2, h3, h4 4, h5 rfl, hu1, hu2⟩

/-- Claim C9 (counterexample): for `[u32; 2147483648]` the compile-time
length `2^31` is cast `as i32` and wraps to `-2147483648`, so the
logical type does not carry `N` itself for every compile-time `N`. -/
theorem c9_counterexample :
    data_type (.array .u32 2147483648) =
      some (.fixedSizeList DEFAULT_FIELD_NAME .uint32 false (-2147483648)) := by
  decide

/-- Claim C9 (amended): `[T; N]` maps to `FixedSizeList` of size `N`
and `[u8; N]` to `FixedSizeBinary` of size `N` for every `N` below
`2^31` (the `usize` length is cast to `i32`), while the marker types
`FixedSizeBinary<N>` and `FixedSizeVec<T, N>` carry their `i32` size
parameter unchanged. -/
theorem c9_fixed_len :
    (∀ (t : Rty) (dt : DataType) (n : Nat), ArrowEnableVecForType t = true →
      data_type t = some dt → n < 2147483648 →
      data_type (.array t n) =
        some (.fixedSizeList DEFAULT_FIELD_NAME dt (is_nullable t) (n : Int))) ∧
    (∀ n : Nat, n < 2147483648 →
      data_type (.array .u8 n) = some (.fixedSizeBinary (n : Int))) ∧
    (∀ m : Int, data_type (.fixedSizeBinaryTy m) = some (.fixedSizeBinary m)) ∧
    (∀ (t : Rty) (dt : DataType) (m : Int), ArrowEnableVecForType t = true →
      data_type t = some dt →
      data_type (.fixedSizeVec t m) =
        some (.fixedSizeList DEFAULT_FIELD_NAME dt (is_nullable t) m)) := by
  refine ⟨?_, ?_, fun m => rfl, ?_⟩
  · intro t dt n hev hdt hn
    have hne : t ≠ Rty.u8 := by
      intro h; subst h; exact absurd hev (by decide)
    show (fieldInfo (.array t n)).1 = _
    simp only [fieldInfo, if_neg hne]
    rw [usizeToI32_small n hn,
      mkNested_of_some (fieldInfo t) true _ dt hdt hev rfl]
    rfl
  · intro n hn
    show some (DataType.fixedSizeBinary (usizeToI32 n)) = _
    rw [usizeToI32_small n hn]
  · intro t dt m hev hdt
    show (fieldInfo (.fixedSizeVec t m)).1 = _
    simp only [fieldInfo]
    rw [mkNested_of_some (fieldInfo t) true _ dt hdt hev rfl]
    rfl

/-- Witness for C9's amended theorem at concrete sizes. -/
theorem c9_witness :
    data_type (.array .u32 3) =
      some (.fixedSizeList DEFAULT_FIELD_NAME .uint32 false 3) ∧
    data_type (.array .u8 3) = some (.fixedSizeBinary 3) ∧
    data_type (.fixedSizeBinaryTy 5) = some (.fixedSizeBinary 5) ∧
    data_type (.fixedSizeVec .u32 7) =
      some (.fixedSizeList DEFAULT_FIELD_NAME .uint32 false 7) := by
  obtain ⟨h1, h2, h3, h4⟩ := c9_fixed_len
  exact ⟨h1 .u32 .uint32 3 rfl rfl (by decide), h2 3 (by decide), h3 5,
    h4 .u32 .uint32 7 rfl rfl⟩

/-- Claim C10: the default `arrow_deserialize_internal` unwraps the
`arrow_deserialize` result, so whenever that result is `None` it
panics; consequently deserializing a `Vec<u32>` column that contains an
explicit null element panics instead of returning `None` or an error. -/
theorem c10_default_internal_panics :
    (∀ (Item T : Type) (f : Item → PRes (Option T)) (v : Item),
      f v = .ok none → defaultInternal f v = .panicked) ∧
    (∀ items : List (Option Int), none ∈ items →
      (vecDeser u32Elem).arrow_deserialize (some (.primitive .u32 items)) = .panicked) := by
  constructor
  · intro Item T f v h
    unfold defaultInternal
    rw [h]
  · intro items h
    have hiter : arrow_array_typed_iterator u32Elem (.primitive .u32 items) =
        .ok (.ok (items.map u32Elem.des.arrow_deserialize_internal)) := rfl
    show vecDeserialize u32Elem (some (.primitive .u32 items)) = PRes.panicked
    simp only [vecDeserialize, hiter, collectList_map_panics items h]

/-- Witness for C10: a null primitive item panics the default internal
deserializer, and the column `[1, null]` panics the `Vec<u32>`
deserializer. -/
theorem c10_witness :
    defaultInternal (primitiveDeserialize Int) none = .panicked ∧
    (vecDeser u32Elem).arrow_deserialize (some (.primitive .u32 [some 1, none])) = .panicked :=
  ⟨c10_default_internal_panics.1 (Option Int) Int (primitiveDeserialize Int) none rfl,
   c10_default_internal_panics.2 [some 1, none] (by decide)⟩

end ArrowConvert
